import Mathlib

/-! ABOUT: verification development for the politeia `pi` plugin
(`politeiad/backendv2/tstorebe/plugins/pi/cmds.go`): the proposal
status-derivation engine, the billing-status transition workflow, the
billing-status blob codec, and the bounded FIFO result cache.

Types owned by packages outside the available sources (`backendv2`,
`ticketvote`, the `pi` plugin API package, `store`, `util`) are modelled
from the spec where noted; everything else is translated directly from
`cmds.go`.
-/

namespace Politeia

/-- Modelled from the spec: `backend.StateT`, the record state enum
{Unvetted, Vetted}. The `backendv2` package is not part of the sources. -/
inductive StateT where
  | unvetted
  | vetted
deriving DecidableEq, Repr

/-- Modelled from the spec: `backend.StatusT`, the record status enum
{Unreviewed, Archived, Censored, Public}. -/
inductive StatusT where
  | unreviewed
  | archived
  | censored
  | public
deriving DecidableEq, Repr

/-- Modelled from the spec: `ticketvote.VoteStatusT`, the vote status enum
{Invalid, Unauthorized, Authorized, Started, Rejected, Approved}. The
`ticketvote` package is not part of the sources. -/
inductive VoteStatusT where
  | invalid
  | unauthorized
  | authorized
  | started
  | rejected
  | approved
deriving DecidableEq, Repr

/-- Modelled from the spec: `pi.BillingStatusT`, the billing status enum
{Invalid, Active, Closed, Completed}. The `pi` plugin API package is not
part of the sources. -/
inductive BillingStatusT where
  | invalid
  | active
  | closed
  | completed
deriving DecidableEq, Repr

/-- Modelled from the spec: the numeric wire codes of `pi.BillingStatusT`,
used when forming the signed message (`strconv.FormatUint(uint64(status))`). -/
def BillingStatusT.code : BillingStatusT → Nat
  | .invalid => 0
  | .active => 1
  | .closed => 2
  | .completed => 3

/-- Modelled from the spec: the `pi.BillingStatuses` human-readable name
map used in the transition-rejection error context. -/
def billingStatusString : BillingStatusT → String
  | .invalid => "invalid"
  | .active => "active"
  | .closed => "closed"
  | .completed => "completed"

/-- Modelled from the spec: `pi.PropStatusT`, the proposal status enum with
its terminal / quasi-terminal / transient tiers, plus the Invalid zero
value. -/
inductive PropStatusT where
  | invalid
  | unvetted
  | unvettedAbandoned
  | unvettedCensored
  | abandoned
  | censored
  | underReview
  | voteAuthorized
  | voteStarted
  | rejected
  | approved
  | active
  | completed
  | closed
deriving DecidableEq, Repr

/-- Modelled from the spec: `ticketvote.VoteMetadata` with `LinkTo`
(target token or empty) and `LinkBy` (unix timestamp or zero). -/
structure VoteMetadata where
  linkTo : String
  linkBy : Int
deriving DecidableEq, Repr

/-- Modelled from the spec: `isRFP` — a proposal is an RFP base proposal
iff its vote metadata is present and `LinkBy != 0`. (The helper lives in
the plugin's `pi.go`, not in the available sources; the nil pointer is
modelled as `none`.) -/
def isRFP : Option VoteMetadata → Bool
  | none => false
  | some vm => vm.linkBy ≠ 0

/-- Source `pi.BillingStatusChange` (the decoded record; field set per the spec's
data model and `cmds.go` usage). -/
structure BillingStatusChange where
  token : String
  status : BillingStatusT
  reason : String
  publicKey : String
  signature : String
  timestamp : Int
  receipt : String
deriving DecidableEq, Repr

/-- The allowed billing status transitions (`billingStatusChanges` in
`cmds.go`): `billingStatusChanges from to = true` iff the map entry
`billingStatusChanges[from][to]` exists in the source table. -/
def billingStatusChanges : BillingStatusT → BillingStatusT → Bool
  | .active, .closed => true
  | .active, .completed => true
  | .closed, .active => true
  | .closed, .completed => true
  | .completed, .active => true
  | .completed, .closed => true
  | _, _ => false

/-- Source `proposalBillingStatus` from `cmds.go`: the current billing status of a
proposal given its vote status and its billing status changes. -/
def proposalBillingStatus (vs : VoteStatusT) (bscs : List BillingStatusChange) :
    BillingStatusT :=
  if vs ≠ .approved then
    .invalid
  else
    match bscs.getLast? with
    | none => .active
    | some b => b.status

/-- Source `proposalStatusApproved` from `cmds.go`: the proposal status of an
approved proposal. -/
def proposalStatusApproved (voteMD : Option VoteMetadata)
    (bscs : List BillingStatusChange) : Except String PropStatusT :=
  if isRFP voteMD then
    .ok .approved
  else
    match proposalBillingStatus .approved bscs with
    | .closed => .ok .closed
    | .completed => .ok .completed
    | .active => .ok .active
    | _ => .error "couldn't determine proposal status of an approved proposal"

/-- Source `proposalStatus` from `cmds.go`: combines record metadata and plugin
metadata into the unified proposal status. -/
def proposalStatus (state : StateT) (status : StatusT) (voteStatus : VoteStatusT)
    (voteMD : Option VoteMetadata) (bscs : List BillingStatusChange) :
    Except String PropStatusT :=
  match state, status with
  | .unvetted, .unreviewed => .ok .unvetted
  | .unvetted, .archived => .ok .unvettedAbandoned
  | .unvetted, .censored => .ok .unvettedCensored
  | .vetted, .archived => .ok .abandoned
  | .vetted, .censored => .ok .censored
  | .vetted, .public =>
    match voteStatus with
    | .unauthorized => .ok .underReview
    | .authorized => .ok .voteAuthorized
    | .started => .ok .voteStarted
    | .rejected => .ok .rejected
    | .approved => proposalStatusApproved voteMD bscs
    | .invalid => .error "couldn't determine proposal status"
  | _, _ => .error "couldn't determine proposal status"

/-- Spec-side decision table for `proposalStatus`, written from the words
of the claim (errors are not distinguished, hence `Except Unit`): the
listed rows produce statuses, `(Vetted, Public)` branches on the vote
status with Approved delegating to the approved-status resolution, and
every other combination is an error. -/
def proposalStatusSpecTable (state : StateT) (status : StatusT)
    (voteStatus : VoteStatusT) (voteMD : Option VoteMetadata)
    (bscs : List BillingStatusChange) : Except Unit PropStatusT :=
  match state, status, voteStatus with
  | .unvetted, .unreviewed, _ => .ok .unvetted
  | .unvetted, .archived, _ => .ok .unvettedAbandoned
  | .unvetted, .censored, _ => .ok .unvettedCensored
  | .vetted, .archived, _ => .ok .abandoned
  | .vetted, .censored, _ => .ok .censored
  | .vetted, .public, .unauthorized => .ok .underReview
  | .vetted, .public, .authorized => .ok .voteAuthorized
  | .vetted, .public, .started => .ok .voteStarted
  | .vetted, .public, .rejected => .ok .rejected
  | .vetted, .public, .approved =>
    (proposalStatusApproved voteMD bscs).mapError fun _ => ()
  | _, _, _ => .error ()

/-! Part: Billing-status blob codec (`billingStatusEncode` / `billingStatusDecode`) -/

/-- Source `pluginID` (`pi.PluginID`). -/
def pluginID : String := "pi"

/-- Source `dataDescriptorBillingStatus` from `cmds.go`. -/
def dataDescriptorBillingStatus : String := pluginID ++ "-billingstatus-v1"

/-- Modelled from the spec: `store.DataTypeStructure` (the `store` package
is not part of the sources; the numeric value is immaterial here). -/
def dataTypeStructure : Nat := 1

/-- Source `store.DataDescriptor`: type tag plus descriptor string. -/
structure DataDescriptor where
  dataType : Nat
  descriptor : String
deriving DecidableEq, Repr

/-- Byte strings that appear inside blob entries. JSON serialization of
the two record shapes is modelled by injective constructors (Go's
`json.Marshal` is deterministic and `Unmarshal ∘ Marshal` is the identity
on these structs); `rawBytes` stands for any other byte string. -/
inductive PayloadBytes where
  | bscBytes (bsc : BillingStatusChange)
  | descBytes (dd : DataDescriptor)
  | rawBytes (bytes : List Nat)
deriving DecidableEq, Repr

/-- Modelled from the spec: `util.Digest` (SHA-256 over the payload
bytes). Collision resistance is idealized as injectivity, so the digest
is modelled as the payload itself. -/
def utilDigest (b : PayloadBytes) : PayloadBytes := b

/-- Source `store.BlobEntry`: stored digest, data hint and payload. Base64/hex
transport encodings are bijective on valid encodings and are folded into
the fields; a transport-level decode failure is subsumed by the
unmarshal-failure cases of `billingStatusDecode`. -/
structure BlobEntry where
  digest : PayloadBytes
  dataHint : PayloadBytes
  data : PayloadBytes
deriving DecidableEq, Repr

/-- Modelled from the spec: `store.NewBlobEntry` — the digest is computed
over the serialized payload bytes. -/
def newBlobEntry (hint data : PayloadBytes) : BlobEntry :=
  { digest := utilDigest data, dataHint := hint, data := data }

/-- Source `billingStatusEncode` from `cmds.go`: serialize the change and a
billing-status data descriptor into a blob entry. -/
def billingStatusEncode (bsc : BillingStatusChange) : BlobEntry :=
  newBlobEntry
    (.descBytes { dataType := dataTypeStructure,
                  descriptor := dataDescriptorBillingStatus })
    (.bscBytes bsc)

/-- Failure modes of `billingStatusDecode`, in source order: data-hint
decode/unmarshal failure, unexpected descriptor, digest mismatch
("data is not coherent", the integrity error), payload unmarshal failure. -/
inductive DecodeError where
  | invalidDataHint
  | unexpectedDescriptor
  | notCoherent
  | unmarshalFailed
deriving DecidableEq, Repr

/-- Source `billingStatusDecode` from `cmds.go`: validate the data hint's
descriptor, recompute and compare the payload digest, then deserialize
the payload. -/
def billingStatusDecode (be : BlobEntry) : Except DecodeError BillingStatusChange :=
  match be.dataHint with
  | .descBytes dd =>
    if dd.descriptor ≠ dataDescriptorBillingStatus then
      .error .unexpectedDescriptor
    else if utilDigest be.data ≠ be.digest then
      .error .notCoherent
    else
      match be.data with
      | .bscBytes bsc => .ok bsc
      | _ => .error .unmarshalFailed
  | _ => .error .invalidDataHint

/-! Part: Bounded FIFO result cache -/

/-- Source `cacheData` from the plugin: at most a cached proposal status and a
cached vote status per token. -/
structure CacheData where
  proposalStatus : Option PropStatusT
  voteStatus : Option VoteStatusT
deriving DecidableEq, Repr

/-- Association-list lookup for the cache's token map (Go map reads are
key-based; the list order of `data` is immaterial given distinct keys). -/
def lookupA : List (String × CacheData) → String → Option CacheData
  | [], _ => none
  | (k, v) :: rest, t => if k = t then some v else lookupA rest t

/-- In-place value update of the cache's token map. -/
def updateA : List (String × CacheData) → String → CacheData → List (String × CacheData)
  | [], _, _ => []
  | (k, v) :: rest, t, cd =>
    if k = t then (k, cd) :: rest else (k, v) :: updateA rest t cd

/-- Key deletion in the cache's token map (`delete(p.cache.data, t)`). -/
def eraseA : List (String × CacheData) → String → List (String × CacheData)
  | [], _ => []
  | (k, v) :: rest, t => if k = t then eraseA rest t else (k, v) :: eraseA rest t

/-- The plugin's in-memory cache: `entries` is the insertion-order list
(front = oldest, as in the source's `container/list`), `data` the token
map. The capacity constant `piCacheLimit` is not in the sources and is
passed as a parameter `K` (modelled from the spec: "bounded capacity K, a
fixed configuration constant"). -/
structure PiCache where
  entries : List String
  data : List (String × CacheData)
deriving DecidableEq, Repr

/-- The empty cache. -/
def PiCache.empty : PiCache := { entries := [], data := [] }

/-- Source `cacheDataGet`: read the cache entry for a token (`nil` → `none`). -/
def cacheDataGet (c : PiCache) (token : String) : Option CacheData :=
  lookupA c.data token

/-- The eviction step shared by both cache writers: if the cache is full
(`entries.Len() == piCacheLimit`), remove the front (oldest) entry from
the order list and its token from the map. -/
def evictIfFull (K : Nat) (c : PiCache) : PiCache :=
  if c.entries.length = K then
    match c.entries with
    | [] => c
    | old :: rest => { entries := rest, data := eraseA c.data old }
  else c

/-- Source `cacheVoteStatusSet` from `cmds.go`: overwrite the vote status in
place when the token is present; otherwise evict the oldest entry if the
cache is full and append a fresh entry at the back. -/
def cacheVoteStatusSet (K : Nat) (token : String) (status : VoteStatusT)
    (c : PiCache) : PiCache :=
  match lookupA c.data token with
  | some cd =>
    { c with data := updateA c.data token { cd with voteStatus := some status } }
  | none =>
    let c' := evictIfFull K c
    { entries := c'.entries ++ [token],
      data := (token, { proposalStatus := none, voteStatus := some status }) :: c'.data }

/-- Source `cacheProposalStatusSet` from `cmds.go`: same discipline as
`cacheVoteStatusSet`, storing the proposal status instead. -/
def cacheProposalStatusSet (K : Nat) (token : String) (status : PropStatusT)
    (c : PiCache) : PiCache :=
  match lookupA c.data token with
  | some cd =>
    { c with data := updateA c.data token { cd with proposalStatus := some status } }
  | none =>
    let c' := evictIfFull K c
    { entries := c'.entries ++ [token],
      data := (token, { proposalStatus := some status, voteStatus := none }) :: c'.data }

/-- A cache write, abstracting over which of the two setters is used
(both share the same eviction/insertion discipline). -/
inductive CacheOp where
  | setVote (token : String) (status : VoteStatusT)
  | setProp (token : String) (status : PropStatusT)
deriving DecidableEq, Repr

/-- The token a cache write is keyed by. -/
def CacheOp.token : CacheOp → String
  | .setVote t _ => t
  | .setProp t _ => t

/-- The fresh cache entry a write creates when its token is absent. -/
def CacheOp.freshData : CacheOp → CacheData
  | .setVote _ s => { proposalStatus := none, voteStatus := some s }
  | .setProp _ s => { proposalStatus := some s, voteStatus := none }

/-- Apply one cache write. -/
def applyOp (K : Nat) (op : CacheOp) (c : PiCache) : PiCache :=
  match op with
  | .setVote t s => cacheVoteStatusSet K t s c
  | .setProp t s => cacheProposalStatusSet K t s c

/-- Apply a sequence of cache writes, oldest first. -/
def applyOps (K : Nat) (ops : List CacheOp) (c : PiCache) : PiCache :=
  ops.foldl (fun c op => applyOp K op c) c

/-! Part: Command dispatcher -/

/-- Plugin error codes surfaced by the commands (`pi.ErrorCodeT` wrapped in
`backend.PluginError`), with the error-context strings from `cmds.go`.
`payloadMalformed` stands for the plain `json.Unmarshal` error of step 1. -/
inductive PiError where
  | payloadMalformed
  | tokenInvalid (ctx : String)
  | billingStatusInvalid (ctx : String)
  | publicKeyInvalid (ctx : String)
  | signatureInvalid (ctx : String)
  | billingStatusChangeNotAllowed (ctx : String)
deriving DecidableEq, Repr

/-- Modelled from the spec: the two failure kinds of
`util.VerifySignature` (`util` is not part of the sources). -/
inductive SigErrorKind where
  | publicKeyInvalid
  | signatureInvalid
deriving DecidableEq, Repr

/-- Source `convertSignatureError` from `cmds.go`: map a util signature error to
the pi plugin error code (context string comes from the util error and is
not modelled). -/
def convertSignatureError : SigErrorKind → PiError
  | .publicKeyInvalid => .publicKeyInvalid ""
  | .signatureInvalid => .signatureInvalid ""

/-- Modelled from the spec: the fixed token length in bytes ("Token:
fixed-length byte identifier"; the constant lives outside the sources). -/
def tokenSize : Nat := 8

/-- Value of a single hexadecimal digit. -/
def hexDigitVal (ch : Char) : Option Nat :=
  if '0' ≤ ch ∧ ch ≤ '9' then some (ch.toNat - '0'.toNat)
  else if 'a' ≤ ch ∧ ch ≤ 'f' then some (ch.toNat - 'a'.toNat + 10)
  else if 'A' ≤ ch ∧ ch ≤ 'F' then some (ch.toNat - 'A'.toNat + 10)
  else none

/-- Decode a hex string, two digits per byte. -/
def hexPairsDecode : List Char → Option (List Nat)
  | [] => some []
  | [_] => none
  | c₁ :: c₂ :: rest =>
    match hexDigitVal c₁, hexDigitVal c₂, hexPairsDecode rest with
    | some h, some l, some bs => some ((16 * h + l) :: bs)
    | _, _, _ => none

/-- Modelled from the spec: `tokenDecode` — a payload token must be the
full-length hex form of a token and decodes to its bytes. -/
def tokenDecode (s : String) : Option (List Nat) :=
  match hexPairsDecode s.data with
  | some bytes => if bytes.length = tokenSize then some bytes else none
  | none => none

/-- Source `tokenMatches` from `cmds.go`: the payload token must decode and its
bytes must equal the command token. -/
def tokenMatches (cmdToken : List Nat) (payloadToken : String) : Except PiError Unit :=
  match tokenDecode payloadToken with
  | none => .error (.tokenInvalid "token regexp")
  | some pt =>
    if pt = cmdToken then .ok ()
    else .error (.tokenInvalid "payload token does not match command token")

/-- Source `pi.SetBillingStatus`: the decoded command payload. -/
structure SetBillingStatus where
  token : String
  status : BillingStatusT
  reason : String
  publicKey : String
  signature : String
deriving DecidableEq, Repr

/-- The raw command payload: either it fails `json.Unmarshal` or it decodes
to a `SetBillingStatus`. -/
inductive Payload where
  | malformed
  | decoded (sbs : SetBillingStatus)
deriving DecidableEq, Repr

/-- Source `pi.SetBillingStatusReply`. -/
structure SetBillingStatusReply where
  timestamp : Int
  receipt : String
deriving DecidableEq, Repr

/-- The per-token facts and collaborators a command execution sees,
modelling the backend interface of spec §6 (reliable per spec §1): the
record's metadata and decoded vote-metadata file, the vote summary, the
decoded and timestamp-sorted billing status changes, the configured
change-count maximum, signature verification and server signing, the
clock, and the in-memory cache. -/
structure PiEnv where
  recordState : StateT
  recordStatus : StatusT
  voteMD : Option VoteMetadata
  voteStatus : VoteStatusT
  bscs : List BillingStatusChange
  billingStatusChangesMax : Nat
  verifySignature : String → String → String → Option SigErrorKind
  signMessage : String → String
  now : Int
  cache : PiCache

/-- Source `cmdSetBillingStatus` from `cmds.go`. Returns the command reply (or
the first failing check's error) together with the list of billing-status
change blobs persisted by the call (empty on failure, the one saved
change on success). -/
def cmdSetBillingStatus (env : PiEnv) (cmdToken : List Nat) (payload : Payload) :
    Except PiError SetBillingStatusReply × List BillingStatusChange :=
  match payload with
  | .malformed => (.error .payloadMalformed, [])
  | .decoded sbs =>
    match tokenMatches cmdToken sbs.token with
    | .error e => (.error e, [])
    | .ok _ =>
      match sbs.status with
      | .active | .closed | .completed =>
        let msg := sbs.token ++ toString sbs.status.code ++ sbs.reason
        match env.verifySignature sbs.signature sbs.publicKey msg with
        | some k => (.error (convertSignatureError k), [])
        | none =>
          if sbs.status = .closed ∧ sbs.reason = "" then
            (.error (.billingStatusChangeNotAllowed
              "must provide a reason when setting billing status to closed"), [])
          else if env.voteStatus ≠ .approved then
            (.error (.billingStatusChangeNotAllowed
              "setting billing status is allowed only if proposal vote was approved"), [])
          else if isRFP env.voteMD then
            (.error (.billingStatusChangeNotAllowed
              "rfp proposals do not have a billing status"), [])
          else if (env.bscs.length + 1) % 2 ^ 32 > env.billingStatusChangesMax then
            (.error (.billingStatusChangeNotAllowed
              "number of billing status changes exceeds the maximum allowed number of billing status changes"), [])
          else
            let currStatus := proposalBillingStatus env.voteStatus env.bscs
            if billingStatusChanges currStatus sbs.status = false then
              (.error (.billingStatusChangeNotAllowed
                ("invalid billing status transition, " ++
                  billingStatusString currStatus ++ " to " ++
                  billingStatusString sbs.status ++ " is not allowed")), [])
            else
              let receipt := env.signMessage sbs.signature
              let bsc : BillingStatusChange :=
                { token := sbs.token, status := sbs.status, reason := sbs.reason,
                  publicKey := sbs.publicKey, signature := sbs.signature,
                  timestamp := env.now, receipt := receipt }
              (.ok { timestamp := bsc.timestamp, receipt := bsc.receipt }, [bsc])
      | _ => (.error (.billingStatusInvalid "invalid billing status"), [])

/-- Spec-side ordered check list for `cmdSetBillingStatus`, written from
the words of the claim: payload decode, token match, status-value
validity, signature, non-empty reason when Closed, vote approved, not an
RFP base proposal, change-count cap, transition legality; the result is
the first failing check's error, or `none` when every check passes. -/
def setBillingStatusFirstFailure (env : PiEnv) (cmdToken : List Nat)
    (payload : Payload) : Option PiError :=
  match payload with
  | .malformed => some .payloadMalformed
  | .decoded sbs =>
    match tokenMatches cmdToken sbs.token with
    | .error e => some e
    | .ok _ =>
      if ¬(sbs.status = .active ∨ sbs.status = .closed ∨ sbs.status = .completed) then
        some (.billingStatusInvalid "invalid billing status")
      else
        match env.verifySignature sbs.signature sbs.publicKey
            (sbs.token ++ toString sbs.status.code ++ sbs.reason) with
        | some k => some (convertSignatureError k)
        | none =>
          if sbs.status = .closed ∧ sbs.reason = "" then
            some (.billingStatusChangeNotAllowed
              "must provide a reason when setting billing status to closed")
          else if env.voteStatus ≠ .approved then
            some (.billingStatusChangeNotAllowed
              "setting billing status is allowed only if proposal vote was approved")
          else if isRFP env.voteMD then
            some (.billingStatusChangeNotAllowed
              "rfp proposals do not have a billing status")
          else if (env.bscs.length + 1) % 2 ^ 32 > env.billingStatusChangesMax then
            some (.billingStatusChangeNotAllowed
              "number of billing status changes exceeds the maximum allowed number of billing status changes")
          else if billingStatusChanges
              (proposalBillingStatus env.voteStatus env.bscs) sbs.status = false then
            some (.billingStatusChangeNotAllowed
              ("invalid billing status transition, " ++
                billingStatusString (proposalBillingStatus env.voteStatus env.bscs) ++
                " to " ++ billingStatusString sbs.status ++ " is not allowed"))
          else
            none

/-- The slow (cache-miss) path of `cmdSummary` from `cmds.go`: read the
abridged record, fetch the vote summary only for vetted public records and
the billing history only for approved votes, derive the status, and cache
it according to its tier. Returns the derived status and the cache after
the call. -/
def cmdSummarySlow (K : Nat) (env : PiEnv) (token : String) :
    Except String PropStatusT × PiCache :=
  let mdState := env.recordState
  let mdStatus := env.recordStatus
  let voteStatus : VoteStatusT :=
    if mdState = .vetted ∧ mdStatus = .public then env.voteStatus else .invalid
  let bscs : List BillingStatusChange :=
    if mdState = .vetted ∧ mdStatus = .public ∧ env.voteStatus = .approved then
      env.bscs
    else []
  match proposalStatus mdState mdStatus voteStatus env.voteMD bscs with
  | .error e => (.error e, env.cache)
  | .ok s =>
    let cache' :=
      match s with
      | .unvettedAbandoned | .unvettedCensored | .abandoned | .censored
      | .approved | .rejected => cacheProposalStatusSet K token s env.cache
      | .active | .completed | .closed => cacheVoteStatusSet K token voteStatus env.cache
      | _ => env.cache
    (.ok s, cache')

/-- Source `cmdSummary` from `cmds.go`: fast path on a cached proposal status,
fast path on a cached vote status (resolving via the billing history with
a nil vote metadata), slow path otherwise. -/
def cmdSummary (K : Nat) (env : PiEnv) (token : String) :
    Except String PropStatusT × PiCache :=
  match cacheDataGet env.cache token with
  | some d =>
    match d.proposalStatus with
    | some s => (.ok s, env.cache)
    | none =>
      match d.voteStatus with
      | some _ =>
        (match proposalStatusApproved none env.bscs with
         | .error e => (.error e, env.cache)
         | .ok s => (.ok s, env.cache))
      | none => cmdSummarySlow K env token
  | none => cmdSummarySlow K env token

/-! Part: Concrete inputs used to instantiate theorems -/

/-- A concrete billing status change (Closed, with a reason). -/
def bscClosedSample : BillingStatusChange :=
  { token := "0000000000000000", status := .closed, reason := "done",
    publicKey := "pk", signature := "sig", timestamp := 5, receipt := "r" }

/-- A concrete vote metadata marking an RFP base proposal. -/
def LinkByOne : VoteMetadata := { linkTo := "", linkBy := 1 }

/-- A concrete environment for the Scenario-A instantiation: a vetted
public record with an approved vote, no vote metadata, an empty billing
history, and an empty cache. -/
def envScenarioA : PiEnv :=
  { recordState := .vetted, recordStatus := .public, voteMD := none,
    voteStatus := .approved, bscs := [], billingStatusChangesMax := 2,
    verifySignature := fun _ _ _ => none, signMessage := fun _ => "receipt",
    now := 10, cache := .empty }

/-- Spec-side cache-write policy, written from the words of the claim:
terminal statuses are stored as a cached proposal status, quasi-terminal
statuses cache only the Approved vote status, transient statuses cause no
cache write. -/
def summaryCacheTier (K : Nat) (t : String) (s : PropStatusT) (c : PiCache) :
    PiCache :=
  match s with
  | .unvettedAbandoned | .unvettedCensored | .abandoned | .censored
  | .approved | .rejected => cacheProposalStatusSet K t s c
  | .active | .completed | .closed => cacheVoteStatusSet K t .approved c
  | _ => c

/-- The command token matching the payload token
`"0000000000000000"`. -/
def tokenBytes0 : List Nat := [0, 0, 0, 0, 0, 0, 0, 0]

/-- A Closed request with an empty reason (Scenario C). -/
def sbsClosedEmptyReason : SetBillingStatus :=
  { token := "0000000000000000", status := .closed, reason := "",
    publicKey := "pk", signature := "sig" }

/-- A Completed request with a reason. -/
def sbsCompleted : SetBillingStatus :=
  { token := "0000000000000000", status := .completed, reason := "work done",
    publicKey := "pk", signature := "sig" }

/-- The Scenario-E environment: maximum of 2 changes with a history that
already holds 2. -/
def envScenarioE : PiEnv :=
  { envScenarioA with bscs := [bscClosedSample, bscClosedSample] }

/-- A concrete cache write keyed by token "a". -/
def opA : CacheOp := .setVote "a" .approved

/-- A concrete cache write keyed by token "b". -/
def opB : CacheOp := .setVote "b" .approved

/-- A concrete cache write keyed by token "c". -/
def opC : CacheOp := .setProp "c" .approved

/-- A concrete cache already holding token "a". -/
def cacheWithA : PiCache :=
  { entries := ["a"],
    data := [("a", { proposalStatus := none, voteStatus := some .approved })] }

/-- A blob entry whose stored digest does not match the digest of its
payload (a tampered blob). -/
def blobTampered : BlobEntry :=
  { digest := .rawBytes [0],
    dataHint := .descBytes { dataType := 1, descriptor := dataDescriptorBillingStatus },
    data := .rawBytes [1] }

/-- A blob entry carrying a data descriptor other than the billing-status
descriptor. -/
def blobWrongDescriptor : BlobEntry :=
  { digest := .rawBytes [1],
    dataHint := .descBytes { dataType := 1, descriptor := "pi-comment-v1" },
    data := .rawBytes [1] }

/-! Part: Theorems -/

/-- Claim C1: `proposalStatus` follows the specified decision table —
the five unvetted/vetted metadata rows, the `(Vetted, Public)` branch on
vote status with Approved delegating to the approved-status resolution,
and an error for every other `(state, status, voteStatus)` combination. -/
theorem proposalStatus_decision_table (state : StateT) (status : StatusT)
    (voteStatus : VoteStatusT) (voteMD : Option VoteMetadata)
    (bscs : List BillingStatusChange) :
    (proposalStatus state status voteStatus voteMD bscs).mapError (fun _ => ()) =
      proposalStatusSpecTable state status voteStatus voteMD bscs := by
  cases state <;> cases status <;> cases voteStatus <;> rfl

/-- Claim C2: for an approved non-RFP proposal the derived status depends
only on the billing history — empty history yields Active, a non-empty
history yields the mapped status of its last entry (Active/Closed/
Completed; an Invalid last entry is an internal error); and a Summary of
a vetted public record with an approved vote and an empty billing history
returns Active. -/
theorem proposalStatusApproved_by_billing_history :
    (∀ (voteMD : Option VoteMetadata), isRFP voteMD = false →
      proposalStatusApproved voteMD [] = .ok .active)
    ∧ (∀ (voteMD : Option VoteMetadata) (bscs : List BillingStatusChange)
        (b : BillingStatusChange), isRFP voteMD = false →
        bscs.getLast? = some b →
        proposalStatusApproved voteMD bscs =
          match b.status with
          | .active => .ok .active
          | .closed => .ok .closed
          | .completed => .ok .completed
          | .invalid =>
            .error "couldn't determine proposal status of an approved proposal")
    ∧ (∀ (K : Nat) (env : PiEnv) (t : String),
        env.recordState = .vetted → env.recordStatus = .public →
        env.voteStatus = .approved → env.bscs = [] → isRFP env.voteMD = false →
        cacheDataGet env.cache t = none →
        (cmdSummary K env t).1 = .ok .active) := by
  refine ⟨?_, ?_, ?_⟩
  · intro voteMD h
    simp [proposalStatusApproved, h, proposalBillingStatus]
  · intro voteMD bscs b h hlast
    simp only [proposalStatusApproved, h, Bool.false_eq_true, if_false,
      proposalBillingStatus, ne_eq, not_true_eq_false, if_false, hlast]
    cases b.status <;> rfl
  · intro K env t h1 h2 h3 h4 h5 h6
    simp [cmdSummary, h6, cmdSummarySlow, h1, h2, h3, h4, h5,
      proposalStatus, proposalStatusApproved, proposalBillingStatus]

/-- Instantiation of `proposalStatusApproved_by_billing_history` at
concrete inputs: no vote metadata with an empty history, a history ending
in a Closed entry, and the Scenario-A environment. -/
theorem proposalStatusApproved_by_billing_history_witness :
    proposalStatusApproved none [] = .ok .active
    ∧ proposalStatusApproved none [bscClosedSample] = .ok .closed
    ∧ (cmdSummary 2 envScenarioA "00").1 = .ok .active := by
  refine ⟨proposalStatusApproved_by_billing_history.1 none (by decide), ?_, ?_⟩
  · have h := proposalStatusApproved_by_billing_history.2.1 none [bscClosedSample]
      bscClosedSample (by decide) (by decide)
    simpa [bscClosedSample] using h
  · exact proposalStatusApproved_by_billing_history.2.2 2 envScenarioA "00"
      rfl rfl rfl rfl (by decide) rfl

/-- Claim C3: an RFP base proposal (vote metadata with `LinkBy ≠ 0`)
resolves to Approved for every billing history whatsoever. -/
theorem proposalStatusApproved_rfp_always_approved
    (vm : VoteMetadata) (bscs : List BillingStatusChange) (h : vm.linkBy ≠ 0) :
    proposalStatusApproved (some vm) bscs = .ok .approved := by
  have hr : isRFP (some vm) = true := by simp [isRFP, h]
  simp [proposalStatusApproved, hr]

/-- Instantiation of `proposalStatusApproved_rfp_always_approved` at a
concrete RFP vote metadata and a non-empty billing history. -/
theorem proposalStatusApproved_rfp_always_approved_witness :
    (LinkByOne.linkBy ≠ 0)
    ∧ proposalStatusApproved (some LinkByOne) [bscClosedSample] = .ok .approved :=
  ⟨by decide, proposalStatusApproved_rfp_always_approved LinkByOne
    [bscClosedSample] (by decide)⟩

/-- Claim C5: the transition table is exactly the six ordered pairs of
distinct statuses among {Active, Closed, Completed}; Invalid is never a
source or a target. -/
theorem billingStatusChanges_exactly_six_pairs
    (f t : BillingStatusT) :
    billingStatusChanges f t = true ↔
      ((f = .active ∨ f = .closed ∨ f = .completed)
        ∧ (t = .active ∨ t = .closed ∨ t = .completed)
        ∧ f ≠ t) := by
  cases f <;> cases t <;> decide

/-- Counterexample to claim C6: the source table does not contain the
self-transition `(Active, Active)`, so it is not treated as legal. -/
theorem billingStatusChanges_self_counterexample :
    ¬ (billingStatusChanges .active .active = true) := by
  decide

/-- Claim C6 (amended): for every status `s` in {Active, Closed,
Completed}, the self-transition `(s, s)` is absent from the source
transition table and hence illegal — a request whose requested status
equals the current billing status fails transition validation. -/
theorem billingStatusChanges_self_illegal (s : BillingStatusT)
    (h : s = .active ∨ s = .closed ∨ s = .completed) :
    billingStatusChanges s s = false := by
  rcases h with h | h | h <;> subst h <;> decide

/-- Instantiation of `billingStatusChanges_self_illegal` at Active. -/
theorem billingStatusChanges_self_illegal_witness :
    (BillingStatusT.active = .active ∨ BillingStatusT.active = .closed
      ∨ BillingStatusT.active = .completed)
    ∧ billingStatusChanges .active .active = false :=
  ⟨Or.inl rfl, billingStatusChanges_self_illegal .active (Or.inl rfl)⟩

/-- Claim C7: decoding an encoded billing status change returns the
original change; decoding a blob whose stored digest does not match the
digest of its payload fails with the integrity ("not coherent") error;
and decoding a blob whose descriptor differs from the billing-status
descriptor fails with the unexpected-descriptor error. -/
theorem billingStatus_codec_roundtrip_and_integrity :
    (∀ bsc : BillingStatusChange,
      billingStatusDecode (billingStatusEncode bsc) = .ok bsc)
    ∧ (∀ (be : BlobEntry) (dd : DataDescriptor),
        be.dataHint = .descBytes dd →
        dd.descriptor = dataDescriptorBillingStatus →
        utilDigest be.data ≠ be.digest →
        billingStatusDecode be = .error .notCoherent)
    ∧ (∀ (be : BlobEntry) (dd : DataDescriptor),
        be.dataHint = .descBytes dd →
        dd.descriptor ≠ dataDescriptorBillingStatus →
        billingStatusDecode be = .error .unexpectedDescriptor) := by
  refine ⟨?_, ?_, ?_⟩
  · intro bsc
    simp [billingStatusDecode, billingStatusEncode, newBlobEntry, utilDigest]
  · intro be dd h1 h2 h3
    simp only [utilDigest] at h3
    simp [billingStatusDecode, h1, h2, h3, utilDigest]
  · intro be dd h1 h2
    simp [billingStatusDecode, h1, h2]

/-- Instantiation of `billingStatus_codec_roundtrip_and_integrity` at a
concrete change, a concrete tampered blob, and a concrete blob with a
foreign descriptor. -/
theorem billingStatus_codec_roundtrip_and_integrity_witness :
    billingStatusDecode (billingStatusEncode bscClosedSample) = .ok bscClosedSample
    ∧ (utilDigest blobTampered.data ≠ blobTampered.digest
        ∧ billingStatusDecode blobTampered = .error .notCoherent)
    ∧ billingStatusDecode blobWrongDescriptor = .error .unexpectedDescriptor := by
  refine ⟨billingStatus_codec_roundtrip_and_integrity.1 bscClosedSample,
    ⟨by decide, billingStatus_codec_roundtrip_and_integrity.2.1 blobTampered
      _ rfl rfl (by decide)⟩,
    billingStatus_codec_roundtrip_and_integrity.2.2 blobWrongDescriptor
      _ rfl (by decide)⟩

/-- Claim C10: for every vote status other than Approved the derived
billing status is Invalid, regardless of the billing history. -/
theorem proposalBillingStatus_requires_approved
    (vs : VoteStatusT) (bscs : List BillingStatusChange)
    (h : vs ≠ .approved) :
    proposalBillingStatus vs bscs = .invalid := by
  simp [proposalBillingStatus, h]

/-- Instantiation of `proposalBillingStatus_requires_approved` at vote
status Started with a non-empty billing history. -/
theorem proposalBillingStatus_requires_approved_witness :
    (VoteStatusT.started ≠ .approved)
    ∧ proposalBillingStatus .started [bscClosedSample] = .invalid :=
  ⟨by decide, proposalBillingStatus_requires_approved .started
    [bscClosedSample] (by decide)⟩

/-- Claim C4: `cmdSetBillingStatus` applies the validation checks in the
specified order — the command result is the first failing check's error
with nothing persisted, and only when every check passes is exactly one
billing-status change persisted; in particular a Closed request with an
empty reason, and a request that would make the history exceed the
configured maximum, each fail with the corresponding policy error and no
write. -/
theorem cmdSetBillingStatus_ordered_validation :
    (∀ (env : PiEnv) (ct : List Nat) (p : Payload) (e : PiError),
      setBillingStatusFirstFailure env ct p = some e →
      cmdSetBillingStatus env ct p = (.error e, []))
    ∧ (∀ (env : PiEnv) (ct : List Nat) (p : Payload),
      setBillingStatusFirstFailure env ct p = none →
      ∃ r b, cmdSetBillingStatus env ct p = (.ok r, [b]))
    ∧ (∀ (env : PiEnv) (ct : List Nat) (sbs : SetBillingStatus),
      tokenMatches ct sbs.token = .ok () →
      env.verifySignature sbs.signature sbs.publicKey
        (sbs.token ++ toString sbs.status.code ++ sbs.reason) = none →
      sbs.status = .closed → sbs.reason = "" →
      cmdSetBillingStatus env ct (.decoded sbs) =
        (.error (.billingStatusChangeNotAllowed
          "must provide a reason when setting billing status to closed"), []))
    ∧ (∀ (env : PiEnv) (ct : List Nat) (sbs : SetBillingStatus),
      tokenMatches ct sbs.token = .ok () →
      (sbs.status = .active ∨ sbs.status = .closed ∨ sbs.status = .completed) →
      env.verifySignature sbs.signature sbs.publicKey
        (sbs.token ++ toString sbs.status.code ++ sbs.reason) = none →
      ¬(sbs.status = .closed ∧ sbs.reason = "") →
      env.voteStatus = .approved →
      isRFP env.voteMD = false →
      (env.bscs.length + 1) % 2 ^ 32 > env.billingStatusChangesMax →
      cmdSetBillingStatus env ct (.decoded sbs) =
        (.error (.billingStatusChangeNotAllowed
          "number of billing status changes exceeds the maximum allowed number of billing status changes"), [])) := by
  refine ⟨?_, ?_, ?_, ?_⟩
  · intro env ct p e h
    obtain ⟨tok, st, reason, pk, sig⟩ | _ := p
    · simp only [setBillingStatusFirstFailure] at h
      simp only [Option.some.injEq] at h
      subst h
      rfl
    · rename_i sbs
      obtain ⟨tok, st, reason, pk, sig⟩ := sbs
      cases htm : tokenMatches ct tok with
      | error e' =>
        simp only [setBillingStatusFirstFailure, htm, Option.some.injEq] at h
        subst h
        simp [cmdSetBillingStatus, htm]
      | ok u =>
        cases u
        cases st <;>
          simp only [setBillingStatusFirstFailure, htm] at h <;>
          simp only [cmdSetBillingStatus, htm]
        case invalid =>
          simp at h
          subst h
          simp
        all_goals
          cases hsig : env.verifySignature sig pk
            (tok ++ toString (BillingStatusT.code _) ++ reason) <;>
          simp_all <;> split_ifs at h ⊢ <;> simp_all
  · intro env ct p h
    obtain _ | sbs := p
    · simp [setBillingStatusFirstFailure] at h
    · obtain ⟨tok, st, reason, pk, sig⟩ := sbs
      cases htm : tokenMatches ct tok with
      | error e' => simp [setBillingStatusFirstFailure, htm] at h
      | ok u =>
        cases u
        cases st <;>
          simp only [setBillingStatusFirstFailure, htm] at h <;>
          simp only [cmdSetBillingStatus, htm]
        case invalid => simp at h
        all_goals
          cases hsig : env.verifySignature sig pk
            (tok ++ toString (BillingStatusT.code _) ++ reason) <;>
          simp_all <;> split_ifs at h ⊢ <;> simp_all
  · intro env ct sbs htm hsig hst hre
    obtain ⟨tok, st, reason, pk, sig⟩ := sbs
    subst hst
    subst hre
    have hsig' : env.verifySignature sig pk
        (tok ++ toString BillingStatusT.closed.code) = none := by
      simpa using hsig
    simp [cmdSetBillingStatus, htm, hsig']
  · intro env ct sbs htm hval hsig hcr happ hrfp hmax
    obtain ⟨tok, st, reason, pk, sig⟩ := sbs
    simp only at htm hval hsig hcr hmax
    rcases hval with h | h | h <;> subst h <;>
      simp_all [cmdSetBillingStatus]

/-- Instantiation of `cmdSetBillingStatus_ordered_validation` at concrete
inputs: a malformed payload, a fully valid Completed request, Scenario C
(Closed with empty reason) and Scenario E (change-count cap reached). -/
theorem cmdSetBillingStatus_ordered_validation_witness :
    cmdSetBillingStatus envScenarioA tokenBytes0 .malformed =
      (.error .payloadMalformed, [])
    ∧ (∃ r b, cmdSetBillingStatus envScenarioA tokenBytes0
        (.decoded sbsCompleted) = (.ok r, [b]))
    ∧ cmdSetBillingStatus envScenarioA tokenBytes0 (.decoded sbsClosedEmptyReason) =
        (.error (.billingStatusChangeNotAllowed
          "must provide a reason when setting billing status to closed"), [])
    ∧ cmdSetBillingStatus envScenarioE tokenBytes0 (.decoded sbsCompleted) =
        (.error (.billingStatusChangeNotAllowed
          "number of billing status changes exceeds the maximum allowed number of billing status changes"), []) :=
  ⟨cmdSetBillingStatus_ordered_validation.1 _ _ _ _ rfl,
    cmdSetBillingStatus_ordered_validation.2.1 _ _ _ (by decide),
    cmdSetBillingStatus_ordered_validation.2.2.1 _ _ _ rfl rfl rfl rfl,
    cmdSetBillingStatus_ordered_validation.2.2.2 _ _ _ rfl (by decide)
      rfl (by decide) rfl rfl (by decide)⟩

/-- If the status deriver returns a quasi-terminal status (Active,
Completed or Closed) then its vote-status input was Approved. -/
theorem proposalStatus_quasi_vote_approved
    (state : StateT) (status : StatusT) (vs : VoteStatusT)
    (vmd : Option VoteMetadata) (bscs : List BillingStatusChange)
    (s : PropStatusT) (hok : proposalStatus state status vs vmd bscs = .ok s)
    (hq : s = .active ∨ s = .completed ∨ s = .closed) :
    vs = .approved := by
  cases state <;> cases status <;> cases vs <;>
    simp_all [proposalStatus]
  all_goals subst hok
  all_goals simp at hq

/-- Claim C9: on the slow (cache-miss) path of Summary, the cache write
follows the tier of the computed status — the six terminal statuses are
stored as a cached proposal status, the quasi-terminal statuses (Active,
Completed, Closed) cache only the Approved vote status, and transient
statuses cause no cache write. -/
theorem cmdSummary_cache_write_policy (K : Nat) (env : PiEnv) (t : String)
    (hmiss : cacheDataGet env.cache t = none) (s : PropStatusT)
    (hok : (cmdSummary K env t).1 = .ok s) :
    (cmdSummary K env t).2 = summaryCacheTier K t s env.cache := by
  simp only [cmdSummary, hmiss] at hok ⊢
  simp only [cmdSummarySlow] at hok ⊢
  generalize hvs : (if env.recordState = StateT.vetted ∧ env.recordStatus = StatusT.public
    then env.voteStatus else VoteStatusT.invalid) = vs at hok ⊢
  generalize hbs : (if env.recordState = StateT.vetted ∧ env.recordStatus = StatusT.public
      ∧ env.voteStatus = VoteStatusT.approved
    then env.bscs else ([] : List BillingStatusChange)) = bscs at hok ⊢
  cases hps : proposalStatus env.recordState env.recordStatus vs env.voteMD bscs with
  | error e =>
    rw [hps] at hok
    exact Except.noConfusion hok
  | ok s0 =>
    rw [hps] at hok
    have hok' : Except.ok (ε := String) s0 = Except.ok s := hok
    have hs : s0 = s := by injection hok'
    subst hs
    cases s0 <;>
      first
        | rfl
        | (rw [proposalStatus_quasi_vote_approved _ _ _ _ _ _ hps (by simp)]; rfl)

/-- Instantiation of `cmdSummary_cache_write_policy` at the Scenario-A
environment, whose slow path derives Active (a quasi-terminal status). -/
theorem cmdSummary_cache_write_policy_witness :
    cacheDataGet envScenarioA.cache "t" = none
    ∧ (cmdSummary 2 envScenarioA "t").1 = .ok .active
    ∧ (cmdSummary 2 envScenarioA "t").2 = summaryCacheTier 2 "t" .active envScenarioA.cache :=
  ⟨rfl, rfl, cmdSummary_cache_write_policy 2 envScenarioA "t" rfl .active rfl⟩

/-- Lookup succeeds exactly on the stored keys. -/
theorem lookupA_isSome_iff (l : List (String × CacheData)) (t : String) :
    (lookupA l t).isSome = true ↔ t ∈ l.map Prod.fst := by
  induction l with
  | nil => simp [lookupA]
  | cons kv rest ih =>
    obtain ⟨k, v⟩ := kv
    by_cases h : k = t
    · subst h
      simp [lookupA]
    · simp only [lookupA, if_neg h, List.map_cons, List.mem_cons, ih]
      constructor
      · exact fun hm => Or.inr hm
      · rintro (h' | hm)
        · exact absurd h'.symm h
        · exact hm

/-- Deleting a key makes its lookup fail. -/
theorem lookupA_eraseA_self (l : List (String × CacheData)) (t : String) :
    lookupA (eraseA l t) t = none := by
  induction l with
  | nil => rfl
  | cons kv rest ih =>
    obtain ⟨k, v⟩ := kv
    by_cases h : k = t <;> simp [eraseA, lookupA, h, ih]

/-- Deleting one key leaves other lookups unchanged. -/
theorem lookupA_eraseA_ne (l : List (String × CacheData)) (t u : String)
    (h : t ≠ u) : lookupA (eraseA l u) t = lookupA l t := by
  induction l with
  | nil => rfl
  | cons kv rest ih =>
    obtain ⟨k, v⟩ := kv
    by_cases hk : k = u
    · subst hk
      simp [eraseA, lookupA, Ne.symm h, ih]
    · by_cases hkt : k = t <;> simp [eraseA, lookupA, hk, hkt, h, ih]

/-- An in-place update never changes which lookups succeed. -/
theorem lookupA_updateA_isSome (l : List (String × CacheData)) (t : String)
    (cd : CacheData) (u : String) :
    (lookupA (updateA l t cd) u).isSome = (lookupA l u).isSome := by
  induction l with
  | nil => rfl
  | cons kv rest ih =>
    obtain ⟨k, v⟩ := kv
    by_cases hk : k = t
    · subst hk
      by_cases hu : k = u <;> simp [updateA, lookupA, hu]
    · by_cases hu : k = u
      · subst hu
        simp [updateA, lookupA, hk]
      · simp [updateA, lookupA, hk, hu, ih]

/-- An in-place update preserves the key list. -/
theorem updateA_keys (l : List (String × CacheData)) (t : String) (cd : CacheData) :
    (updateA l t cd).map Prod.fst = l.map Prod.fst := by
  induction l with
  | nil => rfl
  | cons kv rest ih =>
    obtain ⟨k, v⟩ := kv
    by_cases hk : k = t <;> simp [updateA, hk, ih]

/-- Applying a concatenation of write sequences is sequential composition. -/
theorem applyOps_append (K : Nat) (l₁ l₂ : List CacheOp) (c : PiCache) :
    applyOps K (l₁ ++ l₂) c = applyOps K l₂ (applyOps K l₁ c) := by
  simp [applyOps, List.foldl_append]

/-- A write whose token is absent, applied to a non-full cache, appends a
fresh entry at the back and evicts nothing. -/
theorem applyOp_fresh (K : Nat) (op : CacheOp) (c : PiCache)
    (hop : lookupA c.data op.token = none)
    (hne : c.entries.length ≠ K) :
    applyOp K op c =
      { entries := c.entries ++ [op.token],
        data := (op.token, op.freshData) :: c.data } := by
  cases op <;> simp only [CacheOp.token] at hop <;>
    simp [applyOp, cacheVoteStatusSet, cacheProposalStatusSet, CacheOp.token,
      CacheOp.freshData, hop, evictIfFull, hne]

/-- A write whose token is absent, applied to a full cache, first evicts
the front (oldest) entry and then appends the fresh entry at the back. -/
theorem applyOp_evict (K : Nat) (op : CacheOp) (c : PiCache)
    (old : String) (tl : List String)
    (hop : lookupA c.data op.token = none)
    (hent : c.entries = old :: tl)
    (hlen : c.entries.length = K) :
    applyOp K op c =
      { entries := tl ++ [op.token],
        data := (op.token, op.freshData) :: eraseA c.data old } := by
  have hK : tl.length + 1 = K := by
    rw [hent] at hlen
    simpa using hlen
  cases op <;> simp only [CacheOp.token] at hop <;>
    simp [applyOp, cacheVoteStatusSet, cacheProposalStatusSet, CacheOp.token,
      CacheOp.freshData, hop, evictIfFull, hlen, hent, hK]

/-- Filling a cache with fresh, pairwise-distinct tokens while staying
within capacity appends them in insertion order, with lookups succeeding
exactly on old and new tokens. -/
theorem applyOps_fill (K : Nat) (ops : List CacheOp) (c : PiCache)
    (hlen : c.entries.length + ops.length ≤ K)
    (hnd : (ops.map CacheOp.token).Nodup)
    (hfresh : ∀ op ∈ ops, lookupA c.data op.token = none)
    (hwf : ∀ u, (lookupA c.data u).isSome = true ↔ u ∈ c.entries) :
    (applyOps K ops c).entries = c.entries ++ ops.map CacheOp.token
    ∧ ∀ u, (lookupA (applyOps K ops c).data u).isSome = true ↔
        u ∈ c.entries ++ ops.map CacheOp.token := by
  induction ops generalizing c with
  | nil => simpa [applyOps] using hwf
  | cons op ops ih =>
    have hop : lookupA c.data op.token = none := hfresh op (by simp)
    have hne : c.entries.length ≠ K := by
      simp only [List.length_cons] at hlen
      omega
    have hstep : applyOp K op c =
        { entries := c.entries ++ [op.token],
          data := (op.token, op.freshData) :: c.data } :=
      applyOp_fresh K op c hop hne
    have hops : applyOps K (op :: ops) c = applyOps K ops (applyOp K op c) := by
      simp [applyOps]
    rw [hops, hstep]
    simp only [List.map_cons, List.nodup_cons] at hnd
    have ihr := ih (PiCache.mk (c.entries ++ [op.token])
        ((op.token, op.freshData) :: c.data))
      (by simp only [List.length_cons] at hlen; simp; omega)
      hnd.2
      (by
        intro op' hm
        have hneq : op'.token ≠ op.token := by
          intro hcontra
          exact hnd.1 (hcontra ▸ List.mem_map_of_mem CacheOp.token hm)
        simpa [lookupA, Ne.symm hneq] using hfresh op' (by simp [hm]))
      (by
        intro u
        by_cases hu : op.token = u
        · subst hu
          simp [lookupA]
        · simp [lookupA, hu, hwf u, Ne.symm hu])
    obtain ⟨ih1, ih2⟩ := ihr
    constructor
    · rw [ih1]
      simp
    · intro u
      rw [ih2 u]
      simp

/-- Claim C8: the result cache is bounded by its capacity K with
FIFO-by-first-insertion eviction — (1) a write never grows the entry list
beyond K; (2) a write for an already-present token overwrites in place,
changing neither the insertion order nor the stored key set; (3) starting
from an empty cache, inserting K+1 distinct tokens (via either set
operation) leaves the 2nd through (K+1)th tokens present, the 1st absent,
and the insertion order holding exactly the 2nd through (K+1)th tokens. -/
theorem cache_fifo_bounded_eviction :
    (∀ (K : Nat) (op : CacheOp) (c : PiCache), 1 ≤ K →
      c.entries.length ≤ K → (applyOp K op c).entries.length ≤ K)
    ∧ (∀ (K : Nat) (op : CacheOp) (c : PiCache),
      (lookupA c.data op.token).isSome = true →
      (applyOp K op c).entries = c.entries
      ∧ (applyOp K op c).data.map Prod.fst = c.data.map Prod.fst)
    ∧ (∀ (K : Nat) (op₀ opLast : CacheOp) (rest : List CacheOp),
      rest.length + 1 = K →
      ((op₀ :: rest ++ [opLast]).map CacheOp.token).Nodup →
      cacheDataGet (applyOps K (op₀ :: rest ++ [opLast]) PiCache.empty)
          op₀.token = none
      ∧ (∀ op ∈ rest ++ [opLast],
          (cacheDataGet (applyOps K (op₀ :: rest ++ [opLast]) PiCache.empty)
            op.token).isSome = true)
      ∧ (applyOps K (op₀ :: rest ++ [opLast]) PiCache.empty).entries =
          rest.map CacheOp.token ++ [opLast.token]) := by
  refine ⟨?_, ?_, ?_⟩
  · intro K op c hK hle
    cases hl : lookupA c.data op.token with
    | some cd =>
      cases op <;> simp only [CacheOp.token] at hl <;>
        simp [applyOp, cacheVoteStatusSet, cacheProposalStatusSet, hl] <;>
        exact hle
    | none =>
      by_cases hfull : c.entries.length = K
      · obtain ⟨old, tl, hent⟩ : ∃ old tl, c.entries = old :: tl := by
          cases hc : c.entries with
          | nil =>
            rw [hc] at hfull
            simp at hfull
            omega
          | cons a l => exact ⟨a, l, rfl⟩
        rw [applyOp_evict K op c old tl hl hent hfull]
        have htl : tl.length + 1 = K := by
          rw [hent] at hfull
          simpa using hfull
        simp
        omega
      · rw [applyOp_fresh K op c hl hfull]
        simp
        omega
  · intro K op c hs
    obtain ⟨cd, hcd⟩ := Option.isSome_iff_exists.mp hs
    cases op <;> simp only [CacheOp.token] at hcd <;>
      simp [applyOp, cacheVoteStatusSet, cacheProposalStatusSet, hcd, updateA_keys]
  · intro K op₀ opLast rest hK hnd
    have hnd' : (CacheOp.token op₀ ::
        (rest.map CacheOp.token ++ [opLast.token])).Nodup := by
      simpa using hnd
    rw [List.nodup_cons] at hnd'
    obtain ⟨h0, hnd2⟩ := hnd'
    rw [List.nodup_append] at hnd2
    obtain ⟨hrest_nd, _, hdisj⟩ := hnd2
    have h0_ne_rest : op₀.token ∉ rest.map CacheOp.token := fun hm =>
      h0 (List.mem_append.mpr (Or.inl hm))
    have h0_ne_last : op₀.token ≠ opLast.token := fun he =>
      h0 (List.mem_append.mpr (Or.inr (by simp [he])))
    have hlast_ne_rest : opLast.token ∉ rest.map CacheOp.token := fun hm =>
      hdisj hm (by simp)
    have hfill := applyOps_fill K (op₀ :: rest) PiCache.empty
      (by simp [PiCache.empty]; omega)
      (by
        rw [List.map_cons, List.nodup_cons]
        exact ⟨h0_ne_rest, hrest_nd⟩)
      (by intro op hm; rfl)
      (by intro u; simp [PiCache.empty, lookupA])
    obtain ⟨hent, hmem⟩ := hfill
    simp only [show PiCache.empty.entries = [] from rfl, List.nil_append,
      List.map_cons] at hent hmem
    have hlast_fresh : lookupA (applyOps K (op₀ :: rest) PiCache.empty).data
        opLast.token = none := by
      cases h : lookupA (applyOps K (op₀ :: rest) PiCache.empty).data
          opLast.token with
      | none => rfl
      | some cd =>
        have := (hmem opLast.token).mp (by simp [h])
        simp only [List.mem_cons] at this
        rcases this with h' | h'
        · exact absurd h'.symm h0_ne_last
        · exact absurd h' hlast_ne_rest
    have hlenK : (applyOps K (op₀ :: rest) PiCache.empty).entries.length = K := by
      rw [hent]
      simp
      omega
    have hwhole : applyOps K (op₀ :: rest ++ [opLast]) PiCache.empty =
        applyOp K opLast (applyOps K (op₀ :: rest) PiCache.empty) := by
      rw [show op₀ :: rest ++ [opLast] = (op₀ :: rest) ++ [opLast] from rfl,
        applyOps_append]
      simp [applyOps]
    have hstep := applyOp_evict K opLast
      (applyOps K (op₀ :: rest) PiCache.empty)
      op₀.token (rest.map CacheOp.token) hlast_fresh hent hlenK
    rw [hwhole, hstep]
    refine ⟨?_, ?_, rfl⟩
    · simp only [cacheDataGet, lookupA, if_neg (Ne.symm h0_ne_last)]
      exact lookupA_eraseA_self _ _
    · intro op hm
      rcases List.mem_append.mp hm with hm | hm
      · have hop_mem : op.token ∈ rest.map CacheOp.token :=
          List.mem_map_of_mem CacheOp.token hm
        have hop_ne_last : opLast.token ≠ op.token := fun he =>
          hlast_ne_rest (he ▸ hop_mem)
        have hop_ne_0 : op.token ≠ op₀.token := fun he =>
          h0_ne_rest (he ▸ hop_mem)
        simp only [cacheDataGet, lookupA, if_neg hop_ne_last]
        rw [lookupA_eraseA_ne _ _ _ hop_ne_0]
        exact (hmem op.token).mpr (List.mem_cons.mpr (Or.inr hop_mem))
      · simp only [List.mem_singleton] at hm
        subst hm
        simp [cacheDataGet, lookupA]

/-- Instantiation of `cache_fifo_bounded_eviction` at capacity 2 with
three distinct tokens "a", "b", "c": the bound holds, an overwrite of "a"
keeps order and keys, and the third insert evicts exactly "a". -/
theorem cache_fifo_bounded_eviction_witness :
    (applyOp 1 opA PiCache.empty).entries.length ≤ 1
    ∧ ((applyOp 2 opA cacheWithA).entries = cacheWithA.entries
        ∧ (applyOp 2 opA cacheWithA).data.map Prod.fst = cacheWithA.data.map Prod.fst)
    ∧ (cacheDataGet (applyOps 2 (opA :: [opB] ++ [opC]) PiCache.empty)
          opA.token = none
        ∧ (∀ op ∈ [opB] ++ [opC],
            (cacheDataGet (applyOps 2 (opA :: [opB] ++ [opC]) PiCache.empty)
              op.token).isSome = true)
        ∧ (applyOps 2 (opA :: [opB] ++ [opC]) PiCache.empty).entries =
            ["b", "c"]) := by
  refine ⟨cache_fifo_bounded_eviction.1 1 opA PiCache.empty (by decide) (by decide),
    cache_fifo_bounded_eviction.2.1 2 opA cacheWithA (by decide), ?_⟩
  have h := cache_fifo_bounded_eviction.2.2 2 opA opC [opB] (by decide) (by decide)
  exact ⟨h.1, h.2.1, h.2.2⟩

end Politeia
